import Mathlib

/-!
FinSight: verification of the analytics-summarization pipeline and the
conversational session manager, shallowly embedded from the Python source
(agent.py, categorizer.py, data_loader.py).

DataFrames are modelled as lists of typed rows, monetary amounts as exact
rationals, and the LangChain completion chain as an explicit function
argument returning an Except value.

Two idealizations are deliberate and disclosed where they matter: the
float64 `amount` column is modelled by exact rationals (IEEE-754 rounding
and its accumulation-order dependence are not modelled), and pandas
`sort_values` — whose default quicksort leaves the relative order of ties
unspecified beyond numpy internals — is modelled by a stable sort.  No
theorem below about the program rests on either choice: properties that
would (exact float sum identities, report equality under row permutation,
tie order among equal merchant totals) are out of scope of this embedding.
-/

namespace FinSight

/-- Calendar date carried by the `datetime` column, ordered lexicographically
by (year, month, day).  `build_context_summary` only compares timestamps with
`min`/`max` and prints the date via `strftime`, so the date triple carries the
order that matters. -/
def Date : Type := Lex (ℤ × Lex (ℕ × ℕ))

instance : LinearOrder Date := Prod.Lex.linearOrder _ _

instance : DecidableEq Date := (inferInstanceAs (LinearOrder Date)).decidableEq

/-- A row of the cleaned DataFrame returned by `data_loader.load_data`: the
columns kept from the CSV plus the derived time columns (PII columns are
dropped by the loader).  `is_fraud` is kept as a 0/1 integer, exactly as the
loader does.  `amount` is a float64 column in the source; it is modelled
here as an exact rational, so IEEE-754 rounding and the accumulation-order
dependence of float sums are outside this embedding. -/
structure RawTxn where
  datetime : Date
  merchant : String
  category : String
  amount : ℚ
  city : String
  state : String
  is_fraud : ℕ
  year : ℤ
  month : ℕ
  month_name : String
  day_of_week : String
  hour : ℕ
deriving DecidableEq

/-- `CATEGORY_MAP` from categorizer.py: maps every raw bank category to a
clean FinSight display label (association list in source order; keys are
distinct, as in a Python dict). -/
def CATEGORY_MAP : List (String × String) := [
  ("food_dining", "Food & Groceries"),
  ("grocery_pos", "Food & Groceries"),
  ("grocery_net", "Food & Groceries"),
  ("shopping_pos", "Shopping"),
  ("shopping_net", "Shopping"),
  ("gas_transport", "Transport & Travel"),
  ("travel", "Transport & Travel"),
  ("entertainment", "Entertainment"),
  ("health_fitness", "Health & Wellness"),
  ("personal_care", "Health & Wellness"),
  ("home", "Home & Family"),
  ("kids_pets", "Home & Family"),
  ("misc_pos", "Miscellaneous"),
  ("misc_net", "Miscellaneous")]

/-- Value of the `spending_category` column for one raw category value:
`df["category"].map(CATEGORY_MAP).fillna("Miscellaneous")` is a dict lookup
whose misses (NaN after `map`) are filled with the fallback label.  Total: it
never fails, whatever the raw string is. -/
def spendingCategoryOf (c : String) : String :=
  match CATEGORY_MAP.lookup c with
  | some v => v
  | none => "Miscellaneous"

/-- A categorized row: the raw row plus the single new `spending_category`
column added by `categorize`. -/
structure Txn extends RawTxn where
  spending_category : String
deriving DecidableEq

/-- `categorize(df)` from categorizer.py: `_validate_input` checks that the
`category` column exists (guaranteed here by the row type), the frame is
copied (`df = df.copy()`, so the caller frame is never mutated and the
function is pure), and the mapped `spending_category` column is added. -/
def categorize (df : List RawTxn) : List Txn :=
  df.map fun r => { toRawTxn := r, spending_category := spendingCategoryOf r.category }

/-- A LangChain message held in `FinSightAgent.history`: a HumanMessage or an
AIMessage. -/
inductive Msg where
  | human (content : String)
  | ai (content : String)
deriving DecidableEq

/-- Python slice `l[-m:]` for a natural m: for m = 0 it is `l[0:]`, the whole
list, otherwise the last m elements. -/
def pyTailSlice (m : ℕ) (l : List Msg) : List Msg :=
  if m = 0 then l else l.drop (l.length - m)

/-- The rolling window computed inside `FinSightAgent.ask`:
`self.history[-max_messages:] if len(self.history) > max_messages else
self.history`, with `max_messages = self.max_turns * 2`. -/
def trimmedHistory (maxTurns : ℕ) (history : List Msg) : List Msg :=
  let maxMessages := maxTurns * 2
  if history.length > maxMessages then pyTailSlice maxMessages history else history

/-- The test `not question.strip()` guarding `ask`: `strip` drops leading and
trailing whitespace, so the stripped string is empty (falsy) exactly when
every character of the question is whitespace. -/
def isBlankQuestion (question : String) : Bool :=
  question.data.all Char.isWhitespace

/-- `FinSightAgent.ask(question)`.  The completion chain `self.chain.invoke`
is passed explicitly as a fallible function of the windowed history and the
new question; the result is the history after the call paired with the
outcome (the answer, or the propagated chain exception).  The two
`history.append` calls run only after `invoke` has returned, so a raising
call leaves the history untouched. -/
def ask {E : Type} (chain : List Msg → String → Except E String)
    (maxTurns : ℕ) (question : String) (history : List Msg) :
    List Msg × Except E String :=
  if isBlankQuestion question then
    (history, Except.ok "Please ask me something about your finances!")
  else
    match chain (trimmedHistory maxTurns history) question with
    | Except.error e => (history, Except.error e)
    | Except.ok response =>
        (history ++ [Msg.human question, Msg.ai response], Except.ok response)

/-- The `amount` total of one group of a pandas `groupby(column)["amount"].sum()`:
sum of the amounts of the rows whose grouping column equals `k`. -/
def groupTotal {K : Type} [DecidableEq K] (f : Txn → K) (k : K) (df : List Txn) : ℚ :=
  ((df.filter fun t => decide (f t = k)).map fun t => t.amount).sum

/-- The row count of one group (the `count` aggregate of `groupby.agg`). -/
def groupCount {K : Type} [DecidableEq K] (f : Txn → K) (k : K) (df : List Txn) : ℕ :=
  (df.filter fun t => decide (f t = k)).length

/-- Group keys of a pandas `groupby` with its default `sort=True`: the
distinct values of the grouping column, in ascending order. -/
def sortedKeys {K : Type} [LinearOrder K] (f : Txn → K) (df : List Txn) : List K :=
  List.insertionSort (· ≤ ·) ((df.map f).dedup)

/-- One insertion step of a stable sort: the incoming element `x` passes over
every existing element `y` with `keep y x`, and is placed in front of the
first element for which that fails, so existing order is preserved on ties. -/
def sInsert {α : Type} (keep : α → α → Bool) (x : α) : List α → List α
  | [] => [x]
  | y :: ys => if keep y x then y :: sInsert keep x ys else x :: y :: ys

/-- Stable insertion sort: the model of pandas `sort_values` used here.
The pandas default `kind='quicksort'` does not document the relative order
of ties (numpy falls back to a stable insertion sort only on short arrays),
so the tie order produced by this model is a modelling choice; no theorem
about the program below relies on it. -/
def sSort {α : Type} (keep : α → α → Bool) : List α → List α
  | [] => []
  | x :: xs => sInsert keep x (sSort keep xs)

/-- A row of the per-category breakdown `cat_summary`. -/
structure CatRow where
  name : String
  total : ℚ
  count : ℕ
deriving DecidableEq

/-- `cat_summary` of `build_context_summary`:
`df.groupby("spending_category", observed=True)["amount"].agg(total, count)`
(one row per distinct label, keys ascending) followed by
`.sort_values("total", ascending=False)` (descending by total; tie order is
the stable model of `sSort`). -/
def catSummary (df : List Txn) : List CatRow :=
  sSort (fun a b => decide (b.total < a.total))
    ((sortedKeys (fun t => t.spending_category) df).map fun k =>
      { name := k
        total := groupTotal (fun t => t.spending_category) k df
        count := groupCount (fun t => t.spending_category) k df })

/-- A row of the top-merchant series. -/
structure MerchRow where
  name : String
  total : ℚ
deriving DecidableEq

/-- `top_merchants` of `build_context_summary`:
`df.groupby("merchant", observed=True)["amount"].sum()
.sort_values(ascending=False).head(10)`.  The merchant series has one row
per distinct merchant and can exceed numpy's insertion-sort threshold, so
the order of tying totals in the program is unspecified; the stable `sSort`
here fixes one concrete choice, and no theorem below depends on it. -/
def topMerchants (df : List Txn) : List MerchRow :=
  (sSort (fun a b => decide (b.total < a.total))
    ((sortedKeys (fun t => t.merchant) df).map fun k =>
      { name := k, total := groupTotal (fun t => t.merchant) k df })).take 10

/-- Grouping key of the monthly breakdown: the (year, month, month_name)
triple, ordered lexicographically as a pandas multi-key groupby orders its
group keys. -/
def MKey : Type := Lex (ℤ × Lex (ℕ × String))

instance : LinearOrder MKey :=
  Prod.Lex.linearOrder _ _

instance : DecidableEq MKey := (inferInstanceAs (LinearOrder MKey)).decidableEq

/-- A row of the monthly-spend table. -/
structure MonRow where
  key : MKey
  total : ℚ
deriving DecidableEq

/-- The (year, month, month_name) grouping key of one row. -/
def monKeyOf (t : Txn) : MKey := toLex (t.year, toLex (t.month, t.month_name))

/-- The (year, month) part of a monthly key: the columns that
`sort_values(["year", "month"])` re-sorts by. -/
def monCoarse (r : MonRow) : Lex (ℤ × ℕ) :=
  toLex ((ofLex r.key).1, (ofLex (ofLex r.key).2).1)

/-- `monthly` of `build_context_summary`:
`df.groupby(["year", "month", "month_name"], observed=True)["amount"].sum()`
(keys ascending), re-sorted stably with `.sort_values(["year", "month"])`
and truncated to the last six rows with `.tail(6)`. -/
def monthlySummary (df : List Txn) : List MonRow :=
  let rows := (sortedKeys monKeyOf df).map fun k =>
    { key := k, total := groupTotal monKeyOf k df : MonRow }
  let sorted := sSort (fun a b => decide (monCoarse a < monCoarse b)) rows
  sorted.drop (sorted.length - 6)

/-- The scan behind `Series.idxmax`: walk the series keeping the label of the
first maximal value seen so far (`best`); a later value replaces it only when
strictly greater. -/
def idxmaxGo {K : Type} [LinearOrder K] (best : K × ℚ) : List (K × ℚ) → K
  | [] => best.1
  | y :: ys => if best.2 < y.2 then idxmaxGo y ys else idxmaxGo best ys

/-- `Series.idxmax`: the label of the first occurrence of the maximum value;
pandas raises on an empty series, modelled by `none`. -/
def idxmax {K : Type} [LinearOrder K] : List (K × ℚ) → Option K
  | [] => none
  | x :: xs => some (idxmaxGo x xs)

/-- `df.groupby("day_of_week")["amount"].sum()` as a label-ascending series. -/
def dayTotals (df : List Txn) : List (String × ℚ) :=
  (sortedKeys (fun t => t.day_of_week) df).map fun k =>
    (k, groupTotal (fun t => t.day_of_week) k df)

/-- `df.groupby("hour")["amount"].sum()` as a label-ascending series. -/
def hourTotals (df : List Txn) : List (ℕ × ℚ) :=
  (sortedKeys (fun t => t.hour) df).map fun k =>
    (k, groupTotal (fun t => t.hour) k df)

/-- `peak_day = df.groupby("day_of_week")["amount"].sum().idxmax()`. -/
def peakDay (df : List Txn) : Option String := idxmax (dayTotals df)

/-- `peak_hour = df.groupby("hour")["amount"].sum().idxmax()`. -/
def peakHour (df : List Txn) : Option ℕ := idxmax (hourTotals df)

/-- `total_spend = df["amount"].sum()`. -/
def totalSpend (df : List Txn) : ℚ := (df.map fun t => t.amount).sum

/-- `total_txns = len(df)`. -/
def totalTxns (df : List Txn) : ℕ := df.length

/-- `fraud_count = int(df["is_fraud"].sum())` (a sum of 0/1 integers). -/
def fraudCount (df : List Txn) : ℕ := (df.map fun t => t.is_fraud).sum

/-- Everything `build_context_summary` computes from the frame before
formatting it: the AggregateReport of the spec. -/
structure AggReport where
  totalSpend : ℚ
  totalTxns : ℕ
  dateMin : WithTop Date
  dateMax : WithBot Date
  avgTxn : ℚ
  maxTxn : WithBot ℚ
  fraudCount : ℕ
  fraudPct : ℚ
  cats : List CatRow
  merchants : List MerchRow
  monthly : List MonRow
  peakDay : Option String
  peakHour : Option ℕ
deriving DecidableEq

/-- The aggregate report of a frame: every statistic of
`build_context_summary`, in one record. -/
def aggReport (df : List Txn) : AggReport :=
  { totalSpend := totalSpend df
    totalTxns := totalTxns df
    dateMin := (df.map fun t => t.datetime).minimum
    dateMax := (df.map fun t => t.datetime).maximum
    avgTxn := totalSpend df / (totalTxns df : ℚ)
    maxTxn := (df.map fun t => t.amount).maximum
    fraudCount := fraudCount df
    fraudPct := 100 * (fraudCount df : ℚ) / (totalTxns df : ℚ)
    cats := catSummary df
    merchants := topMerchants df
    monthly := monthlySummary df
    peakDay := peakDay df
    peakHour := peakHour df }

/-- Nearest integer with ties to even: the rounding applied by Python
fixed-point string formatting. -/
def roundHalfEven (q : ℚ) : ℤ :=
  let f := ⌊q⌋
  let r := q - f
  if r < 1/2 then f
  else if 1/2 < r then f + 1
  else if f % 2 = 0 then f else f + 1

/-- Insert thousands separators into a reversed digit list. -/
def commaChunk : List Char → List Char
  | a :: b :: c :: d :: rest => a :: b :: c :: ',' :: commaChunk (d :: rest)
  | l => l

/-- Decimal digits grouped in threes with commas, as Python `{n:,}` does. -/
def commaGroup (s : String) : String := String.mk (commaChunk s.data.reverse).reverse

/-- Python `{n:,}` on a natural number. -/
def fmtIntComma (n : ℕ) : String := commaGroup (toString n)

/-- Right-align in a field of width `w` (Python `{s:>w}`). -/
def padLeft (w : ℕ) (s : String) : String :=
  String.mk (List.replicate (w - s.length) ' ') ++ s

/-- Left-align in a field of width `w` (Python `{s:<w}`). -/
def padRight (w : ℕ) (s : String) : String :=
  s ++ String.mk (List.replicate (w - s.length) ' ')

/-- Zero-pad to width `w` (Python `{n:0w d}`). -/
def padZero (w : ℕ) (n : ℕ) : String :=
  String.mk (List.replicate (w - (toString n).length) '0') ++ toString n

/-- Python fixed-point float formatting `{x:.(dec)f}` (with thousands
separators in the integer part when `comma` holds, as in `{x:,.2f}`): the
value rounded to `dec` decimals, with sign, integer digits and a `dec`-digit
fraction. -/
def fmtFixed (dec : ℕ) (comma : Bool) (x : ℚ) : String :=
  let scale : ℤ := 10 ^ dec
  let c := roundHalfEven (x * scale)
  let ip := c.natAbs / scale.natAbs
  let fp := c.natAbs % scale.natAbs
  let ipStr := if comma then commaGroup (toString ip) else toString ip
  (if c < 0 then "-" else "") ++ ipStr ++
    (if dec = 0 then "" else "." ++ padZero dec fp)

/-- English month names used by `strftime("%B ...")`. -/
def monthWord : ℕ → String
  | 1 => "January"
  | 2 => "February"
  | 3 => "March"
  | 4 => "April"
  | 5 => "May"
  | 6 => "June"
  | 7 => "July"
  | 8 => "August"
  | 9 => "September"
  | 10 => "October"
  | 11 => "November"
  | 12 => "December"
  | _ => ""

/-- `strftime("%B %d, %Y")`: full month name, zero-padded day, year. -/
def fmtLongDate (d : Date) : String :=
  let p := ofLex d
  let q := ofLex p.2
  monthWord q.1 ++ " " ++ padZero 2 q.2 ++ ", " ++ toString p.1

/-- `chr(10).join(lines)`. -/
def joinNL (lines : List String) : String := String.intercalate "\n" lines

/-- One `cat_lines` row:
`f"  • {cat:<22} ${total:>12,.2f}  ({pct:.1f}%)  {count:>6,} transactions"`,
where the percentage is computed against the frame-level `total_spend`. -/
def catLine (ts : ℚ) (r : CatRow) : String :=
  "  • " ++ padRight 22 r.name ++ " $" ++ padLeft 12 (fmtFixed 2 true r.total) ++
  "  (" ++ fmtFixed 1 false (100 * r.total / ts) ++ "%)  " ++
  padLeft 6 (fmtIntComma r.count) ++ " transactions"

/-- One `merch_lines` row: `f"  {i+1:>2}. {name:<40} ${spend:>10,.2f}"`,
with `i` the 0-based enumeration index. -/
def merchLine (i : ℕ) (r : MerchRow) : String :=
  "  " ++ padLeft 2 (toString (i + 1)) ++ ". " ++ padRight 40 r.name ++
  " $" ++ padLeft 10 (fmtFixed 2 true r.total)

/-- One `monthly_lines` row: `f"  • {month_name:<12}  ${amount:>10,.2f}"`. -/
def monthlyLine (r : MonRow) : String :=
  "  • " ++ padRight 12 (ofLex (ofLex r.key).2).2 ++ "  $" ++
  padLeft 10 (fmtFixed 2 true r.total)

/-- The f-string template closing `build_context_summary`, with the already
formatted scalars and the joined section lines spliced in. -/
def renderSummary (dateMin dateMax : String) (ts : ℚ) (tt : ℕ)
    (avg mx : ℚ) (fc : ℕ) (fp : ℚ)
    (catLines merchLines monthlyLines : List String)
    (pd : String) (ph : ℕ) : String :=
  "=== FINSIGHT DATA SUMMARY ===\n\nOVERVIEW\n  Date range      : " ++
  dateMin ++ " → " ++ dateMax ++
  "\n  Total spend     : $" ++ fmtFixed 2 true ts ++
  "\n  Total txns      : " ++ fmtIntComma tt ++
  "\n  Avg transaction : $" ++ fmtFixed 2 false avg ++
  "\n  Largest txn     : $" ++ fmtFixed 2 true mx ++
  "\n  Fraud txns      : " ++ fmtIntComma fc ++
  " (" ++ fmtFixed 2 false fp ++ "% of all transactions)" ++
  "\n\nSPENDING BY CATEGORY\n" ++ joinNL catLines ++
  "\n\nTOP 10 MERCHANTS BY SPEND\n" ++ joinNL merchLines ++
  "\n\nRECENT MONTHLY SPENDING (last 6 months)\n" ++ joinNL monthlyLines ++
  "\n\nBEHAVIORAL PATTERNS\n  Peak spending day  : " ++ pd ++
  "\n  Peak spending hour : " ++ padZero 2 ph ++ ":00"

/-- The summarization stage of `build_context_summary`: turn the aggregate
rows into their formatted lines (`cat_lines`, `merch_lines`,
`monthly_lines`) and splice everything into the template.  Pure string
formatting: it performs no validation of the report and cannot fail. -/
def summarizeReport (dateMin dateMax : String) (ts : ℚ) (tt : ℕ)
    (avg mx : ℚ) (fc : ℕ) (fp : ℚ)
    (cats : List CatRow) (merch : List MerchRow) (monthly : List MonRow)
    (pd : String) (ph : ℕ) : String :=
  renderSummary dateMin dateMax ts tt avg mx fc fp
    (cats.map (catLine ts))
    (merch.enum.map fun p => merchLine p.1 p.2)
    (monthly.map monthlyLine)
    pd ph

/-- The failure conditions of the aggregation stage, per the spec taxonomy. -/
inductive AggError where
  | emptyDataset
deriving DecidableEq

/-- `Series.min().strftime(...)` : on an empty series `min()` is NaT and
`strftime` raises — the empty-dataset failure of the spec taxonomy. -/
def fmtMinDate (x : WithTop Date) : Except AggError String :=
  WithTop.recTopCoe (Except.error AggError.emptyDataset)
    (fun d => Except.ok (fmtLongDate d)) x

/-- `Series.max().strftime(...)` : raises on NaT as `fmtMinDate` does. -/
def fmtMaxDate (x : WithBot Date) : Except AggError String :=
  WithBot.recBotCoe (Except.error AggError.emptyDataset)
    (fun d => Except.ok (fmtLongDate d)) x

/-- `df["amount"].max()` used as a scalar: undefined (NaN) on an empty
series, rendered into the report otherwise. -/
def reqMax (x : WithBot ℚ) : Except AggError ℚ :=
  WithBot.recBotCoe (Except.error AggError.emptyDataset) Except.ok x

/-- `Series.idxmax()` result as required value: pandas raises on an empty
series. -/
def reqPeak {K : Type} : Option K → Except AggError K
  | none => Except.error AggError.emptyDataset
  | some k => Except.ok k

/-- `build_context_summary(df)` from agent.py, in source order.  On an empty
frame the computation fails — `df["datetime"].min()` is NaT so `strftime`
raises, and `fraud_pct = 100 * fraud_count / total_txns` divides by zero —
which the spec taxonomy calls EmptyDatasetError.  On a non-empty frame it
renders the full summary string. -/
def build_context_summary (df : List Txn) : Except AggError String := do
  let ts := totalSpend df
  let tt := totalTxns df
  let dmin ← fmtMinDate ((df.map fun t => t.datetime).minimum)
  let dmax ← fmtMaxDate ((df.map fun t => t.datetime).maximum)
  let avg := ts / (tt : ℚ)
  let mx ← reqMax ((df.map fun t => t.amount).maximum)
  let fc := fraudCount df
  let fp ← if tt = 0 then Except.error AggError.emptyDataset
           else Except.ok (100 * (fc : ℚ) / (tt : ℚ))
  let pd ← reqPeak (peakDay df)
  let ph ← reqPeak (peakHour df)
  Except.ok (summarizeReport dmin dmax ts tt avg mx fc fp
    (catSummary df) (topMerchants df) (monthlySummary df) pd ph)

/-- A concrete categorized transaction used by concrete instantiations: a
Tuesday travel purchase of 5 at hour 9. -/
def egT1 : Txn :=
  { datetime := toLex ((2024 : ℤ), toLex ((3 : ℕ), (12 : ℕ)))
    merchant := "Acme"
    category := "travel"
    amount := 5
    city := "Austin"
    state := "TX"
    is_fraud := 0
    year := 2024
    month := 3
    month_name := "Mar 2024"
    day_of_week := "Tuesday"
    hour := 9
    spending_category := spendingCategoryOf "travel" }

/-- A second concrete transaction: a Thursday home purchase of 5 at hour 14,
tying `egT1` on amount. -/
def egT2 : Txn :=
  { datetime := toLex ((2024 : ℤ), toLex ((3 : ℕ), (14 : ℕ)))
    merchant := "Bmart"
    category := "home"
    amount := 5
    city := "Austin"
    state := "TX"
    is_fraud := 1
    year := 2024
    month := 3
    month_name := "Mar 2024"
    day_of_week := "Thursday"
    hour := 14
    spending_category := spendingCategoryOf "home" }

/-- Modelled from the spec: the fixed Monday-first week ordering the spec
uses for the BehavioralPeak tie-break (the code never defines one — it
groups by the day-name strings themselves). -/
def weekIndex : String → ℕ
  | "Monday" => 0
  | "Tuesday" => 1
  | "Wednesday" => 2
  | "Thursday" => 3
  | "Friday" => 4
  | "Saturday" => 5
  | "Sunday" => 6
  | _ => 7

/-- The group keys of a `groupby` are sorted ascending. -/
theorem sortedKeys_sorted {K : Type} [LinearOrder K] (f : Txn → K) (df : List Txn) :
    (sortedKeys f df).Sorted (· ≤ ·) :=
  List.sorted_insertionSort _ _

/-- The group keys of a `groupby` are distinct. -/
theorem sortedKeys_nodup {K : Type} [LinearOrder K] (f : Txn → K) (df : List Txn) :
    (sortedKeys f df).Nodup :=
  (List.perm_insertionSort _ _).nodup_iff.2 (List.nodup_dedup _)

/-- The group keys are strictly ascending. -/
theorem sortedKeys_pairwise_lt {K : Type} [LinearOrder K] (f : Txn → K) (df : List Txn) :
    (sortedKeys f df).Pairwise (· < ·) :=
  (sortedKeys_sorted f df).lt_of_le (sortedKeys_nodup f df)

/-- A key appears among the group keys exactly when some row carries it. -/
theorem mem_sortedKeys {K : Type} [LinearOrder K] {f : Txn → K} {df : List Txn} {k : K} :
    k ∈ sortedKeys f df ↔ k ∈ df.map f :=
  (List.perm_insertionSort _ _).mem_iff.trans List.mem_dedup


/-- What the `idxmax` scan returns on a label-ascending series: a label
carrying the maximum value, and the least such label — pandas keeps the
first maximum, and the labels ascend. -/
theorem idxmaxGo_spec {K : Type} [LinearOrder K] :
    ∀ (rest : List (K × ℚ)) (best : K × ℚ),
    (best :: rest).Pairwise (fun a b => a.1 < b.1) →
    ∃ v, (idxmaxGo best rest, v) ∈ best :: rest ∧
      (∀ p ∈ best :: rest, p.2 ≤ v) ∧
      (∀ p ∈ best :: rest, p.2 = v → idxmaxGo best rest ≤ p.1)
  | [], best, _ => by
    refine ⟨best.2, by simp [idxmaxGo], ?_, ?_⟩
    · intro p hp
      rcases List.mem_singleton.1 hp with rfl
      exact le_refl _
    · intro p hp _
      rcases List.mem_singleton.1 hp with rfl
      simp [idxmaxGo]
  | y :: ys, best, hp => by
    simp only [idxmaxGo]
    have hpair := List.pairwise_cons.1 hp
    by_cases h : best.2 < y.2
    · rw [if_pos h]
      obtain ⟨v, hv1, hv2, hv3⟩ := idxmaxGo_spec ys y (List.pairwise_cons.1 hp).2
      refine ⟨v, List.mem_cons_of_mem _ hv1, ?_, ?_⟩
      · intro p hp'
        rcases List.mem_cons.1 hp' with rfl | h'
        · exact le_of_lt (lt_of_lt_of_le h (hv2 y (List.mem_cons_self _ _)))
        · exact hv2 p h'
      · intro p hp' he
        rcases List.mem_cons.1 hp' with rfl | h'
        · have hlt : p.2 < v := lt_of_lt_of_le h (hv2 y (List.mem_cons_self _ _))
          rw [he] at hlt
          exact absurd hlt (lt_irrefl v)
        · exact hv3 p h' he
    · rw [if_neg h]
      have hpair' : (best :: ys).Pairwise (fun a b => a.1 < b.1) := by
        rw [List.pairwise_cons]
        exact ⟨fun b hb => hpair.1 b (List.mem_cons_of_mem _ hb),
          (List.pairwise_cons.1 hpair.2).2⟩
      obtain ⟨v, hv1, hv2, hv3⟩ := idxmaxGo_spec ys best hpair'
      refine ⟨v, ?_, ?_, ?_⟩
      · rcases List.mem_cons.1 hv1 with h1 | h1
        · rw [h1]
          exact List.mem_cons_self _ _
        · exact List.mem_cons_of_mem _ (List.mem_cons_of_mem _ h1)
      · intro p hp'
        rcases List.mem_cons.1 hp' with rfl | h'
        · exact hv2 p (List.mem_cons_self _ _)
        rcases List.mem_cons.1 h' with rfl | h''
        · exact le_trans (le_of_not_lt h) (hv2 best (List.mem_cons_self _ _))
        · exact hv2 p (List.mem_cons_of_mem _ h'')
      · intro p hp' he
        rcases List.mem_cons.1 hp' with rfl | h'
        · exact hv3 p (List.mem_cons_self _ _) he
        rcases List.mem_cons.1 h' with rfl | h''
        · have hbv : best.2 = v :=
            le_antisymm (hv2 best (List.mem_cons_self _ _)) (he ▸ le_of_not_lt h)
          exact le_trans (hv3 best (List.mem_cons_self _ _) hbv)
            (le_of_lt (hpair.1 p (List.mem_cons_self _ _)))
        · exact hv3 p (List.mem_cons_of_mem _ h'') he

/-- A Python dict lookup misses when the key is not among the keys. -/
theorem lookup_eq_none_of_key_not_mem {β : Type} (c : String) :
    ∀ m : List (String × β), c ∉ m.map Prod.fst → m.lookup c = none
  | [], _ => rfl
  | (k, v) :: t, h => by
    have h1 : (c == k) = false := by
      refine beq_eq_false_iff_ne.2 fun e => h ?_
      rw [e]
      exact List.mem_cons_self _ _
    have h2 : c ∉ t.map Prod.fst := fun hm => h (List.mem_cons_of_mem _ hm)
    simp [List.lookup, h1, lookup_eq_none_of_key_not_mem c t h2]

/-- C1: for every question and every history, if the completion call raised
by `ask` fails, the history after the call equals the history before it —
no HumanMessage or AIMessage is appended — and on a successful call exactly
one (question, answer) pair is appended, both messages together, only after
the response is obtained. -/
theorem c1_ask_failure_atomic {E : Type} (chain : List Msg → String → Except E String)
    (maxTurns : ℕ) (question : String) (history : List Msg) :
    (∀ e, chain (trimmedHistory maxTurns history) question = Except.error e →
      (ask chain maxTurns question history).1 = history) ∧
    (∀ response, isBlankQuestion question = false →
      chain (trimmedHistory maxTurns history) question = Except.ok response →
      ask chain maxTurns question history =
        (history ++ [Msg.human question, Msg.ai response], Except.ok response)) := by
  constructor
  · intro e he
    cases hb : isBlankQuestion question with
    | true => simp [ask, hb]
    | false => simp [ask, hb, he]
  · intro r hb hr
    simp [ask, hb, hr]

/-- Witness for C1: a failing chain leaves an empty history empty, and a
succeeding chain appends exactly the two messages of the new turn. -/
theorem c1_witness :
    (ask (fun _ _ => (Except.error () : Except Unit String)) 10 "hi" []).1 = [] ∧
    ask (fun _ _ => (Except.ok "ans" : Except Unit String)) 10 "hi" [] =
      ([Msg.human "hi", Msg.ai "ans"], Except.ok "ans") := by
  constructor
  · exact (c1_ask_failure_atomic (fun _ _ => Except.error ()) 10 "hi" []).1 () rfl
  · have h := (c1_ask_failure_atomic (fun _ _ => (Except.ok "ans" : Except Unit String))
      10 "hi" []).2 "ans" (by decide) rfl
    simpa using h

/-- C2: a question that is empty or consists only of whitespace returns the
fixed fallback string and leaves the history unchanged; the outcome is the
same for every completion chain, so no call to the service is performed. -/
theorem c2_blank_question_noop {E : Type} (chain : List Msg → String → Except E String)
    (maxTurns : ℕ) (question : String) (history : List Msg)
    (hq : ∀ c ∈ question.data, c.isWhitespace = true) :
    ask chain maxTurns question history =
      (history, Except.ok "Please ask me something about your finances!") := by
  have hb : isBlankQuestion question = true := List.all_eq_true.2 hq
  simp [ask, hb]

/-- Witness for C2: the all-whitespace question on a two-message history. -/
theorem c2_witness :
    ask (fun _ _ => (Except.error () : Except Unit String)) 10 "   "
      [Msg.human "a", Msg.ai "b"] =
      ([Msg.human "a", Msg.ai "b"],
        Except.ok "Please ask me something about your finances!") :=
  c2_blank_question_noop _ 10 "   " _ (by decide)

/-- C3: with the configured window positive (the spec fixes it at 10), the
request sent to the completion service holds at most `max_turns` prior turns
— exactly `min (2 * max_turns) (2 * n)` messages, the most recent ones in
chronological order, being a suffix of the stored history — while the
stored history keeps all `n` prior turns: the history before the call is a
prefix of the history after it, whatever the call outcome, so windowing
never deletes stored turns. -/
theorem c3_windowing {E : Type} (chain : List Msg → String → Except E String)
    (maxTurns n : ℕ) (history : List Msg) (question : String)
    (hmt : 1 ≤ maxTurns) (hlen : history.length = 2 * n)
    (hq : isBlankQuestion question = false) :
    (trimmedHistory maxTurns history).length = min (2 * maxTurns) (2 * n) ∧
    (∃ dropped, dropped ++ trimmedHistory maxTurns history = history) ∧
    (∃ appended, history ++ appended = (ask chain maxTurns question history).1) := by
  refine ⟨?_, ?_, ?_⟩
  · simp only [trimmedHistory, pyTailSlice]
    by_cases hgt : history.length > maxTurns * 2
    · rw [if_pos hgt, if_neg (by omega : ¬ maxTurns * 2 = 0), List.length_drop]
      omega
    · rw [if_neg hgt]
      omega
  · simp only [trimmedHistory, pyTailSlice]
    by_cases hgt : history.length > maxTurns * 2
    · rw [if_pos hgt, if_neg (by omega : ¬ maxTurns * 2 = 0)]
      exact ⟨history.take (history.length - maxTurns * 2), List.take_append_drop _ _⟩
    · rw [if_neg hgt]
      exact ⟨[], rfl⟩
  · rcases he : chain (trimmedHistory maxTurns history) question with e | r
    · exact ⟨[], by simp [ask, hq, he]⟩
    · exact ⟨[Msg.human question, Msg.ai r], by simp [ask, hq, he]⟩

/-- Witness for C3: one stored turn, window of 10, non-blank question. -/
theorem c3_witness :
    (trimmedHistory 10 [Msg.human "a", Msg.ai "b"]).length = min (2 * 10) (2 * 1) ∧
    (∃ dropped, dropped ++ trimmedHistory 10 [Msg.human "a", Msg.ai "b"] =
      [Msg.human "a", Msg.ai "b"]) ∧
    (∃ appended, [Msg.human "a", Msg.ai "b"] ++ appended =
      (ask (fun _ _ => (Except.ok "fine" : Except Unit String)) 10 "hello"
        [Msg.human "a", Msg.ai "b"]).1) :=
  c3_windowing _ 10 1 _ "hello" (by decide) (by decide) (by decide)

/-- C4: aggregation of the empty record set fails with the empty-dataset
error rather than returning a report: `min()` of the empty datetime series
is NaT so `strftime` raises there, and the fraud ratio divides by zero. -/
theorem c4_empty_dataset :
    build_context_summary [] = Except.error AggError.emptyDataset := rfl

/-- C6: the category mapping used by `categorize` is total and never raises:
a raw category present in the lookup table maps to its table entry, any raw
category absent from the table maps to the fallback label "Miscellaneous",
and every produced row carries exactly that mapping. -/
theorem c6_category_map_total (c v : String) (l : List RawTxn) :
    ((c, v) ∈ CATEGORY_MAP → spendingCategoryOf c = v) ∧
    (c ∉ CATEGORY_MAP.map Prod.fst → spendingCategoryOf c = "Miscellaneous") ∧
    (∀ t ∈ categorize l, t.spending_category = spendingCategoryOf t.category) := by
  refine ⟨?_, ?_, ?_⟩
  · intro hmem
    have htab : ∀ p ∈ CATEGORY_MAP, spendingCategoryOf p.1 = p.2 := by decide
    exact htab (c, v) hmem
  · intro hc
    rw [spendingCategoryOf, lookup_eq_none_of_key_not_mem c CATEGORY_MAP hc]
  · intro t ht
    obtain ⟨r, hr, rfl⟩ := List.mem_map.1 ht
    rfl

/-- Witness for C6: a mapped raw category and an unknown raw category. -/
theorem c6_witness :
    spendingCategoryOf "travel" = "Transport & Travel" ∧
    spendingCategoryOf "crypto_exchange" = "Miscellaneous" :=
  ⟨(c6_category_map_total "travel" "Transport & Travel" []).1 (by decide),
   (c6_category_map_total "crypto_exchange" "" []).2.1 (by decide)⟩

/-- C10: `categorize` is pure (the source copies the frame before touching
it, so the caller frame is unchanged) and returns the input with exactly one
added column: dropping the new `spending_category` column gives back the
input rows unchanged, and no row is added or removed. -/
theorem c10_categorize_pure (l : List RawTxn) :
    (categorize l).map (fun t => t.toRawTxn) = l ∧
    (categorize l).length = l.length := by
  constructor
  · rw [categorize, List.map_map]
    exact List.map_id l
  · simp [categorize]

set_option maxRecDepth 8000 in
/-- C8 counterexample: fed a structurally invalid report — an empty
category list — the summarizer returns a fully rendered context block whose
SPENDING BY CATEGORY section is blank (the header is followed immediately
by the next header), instead of failing: the code defines no
MalformedReportError and performs no validation, refuting the claim at this
concrete input. -/
theorem c8_counterexample :
    summarizeReport "January 01, 2024" "January 02, 2024" 0 0 0 0 0 0 [] [] []
      "Monday" 0 =
    "=== FINSIGHT DATA SUMMARY ===\n\nOVERVIEW\n  Date range      : January 01, 2024 → January 02, 2024\n  Total spend     : $0.00\n  Total txns      : 0\n  Avg transaction : $0.00\n  Largest txn     : $0.00\n  Fraud txns      : 0 (0.00% of all transactions)\n\nSPENDING BY CATEGORY\n\n\nTOP 10 MERCHANTS BY SPEND\n\n\nRECENT MONTHLY SPENDING (last 6 months)\n\n\nBEHAVIORAL PATTERNS\n  Peak spending day  : Monday\n  Peak spending hour : 00:00" := by
  have hz : fmtFixed 2 true 0 = "0.00" := by
    simp [fmtFixed, roundHalfEven]
    decide
  have hz2 : fmtFixed 2 false 0 = "0.00" := by
    simp [fmtFixed, roundHalfEven]
    decide
  simp only [summarizeReport, renderSummary, hz, hz2, List.map_nil]
  decide

/-- C8 amended: the summarizer performs no invariant validation and cannot
fail: for a report whose category list is empty — whatever the remaining
fields hold — it emits the context block with a blank SPENDING BY CATEGORY
section, the category header followed by the empty join and the next
header, rather than failing with a MalformedReportError. -/
theorem c8_amended_no_validation (dmin dmax : String) (ts : ℚ) (tt : ℕ)
    (avg mx : ℚ) (fc : ℕ) (fp : ℚ) (merch : List MerchRow) (monthly : List MonRow)
    (pd : String) (ph : ℕ) :
    ∃ pre post,
      summarizeReport dmin dmax ts tt avg mx fc fp [] merch monthly pd ph =
        pre ++ "\n\nSPENDING BY CATEGORY\n\n\nTOP 10 MERCHANTS BY SPEND\n" ++ post := by
  refine ⟨"=== FINSIGHT DATA SUMMARY ===\n\nOVERVIEW\n  Date range      : " ++ dmin ++ " → " ++
      dmax ++ "\n  Total spend     : $" ++ fmtFixed 2 true ts ++ "\n  Total txns      : " ++
      fmtIntComma tt ++ "\n  Avg transaction : $" ++ fmtFixed 2 false avg ++
      "\n  Largest txn     : $" ++ fmtFixed 2 true mx ++ "\n  Fraud txns      : " ++
      fmtIntComma fc ++ " (" ++ fmtFixed 2 false fp ++ "% of all transactions)",
    joinNL (merch.enum.map fun p => merchLine p.1 p.2) ++
      "\n\nRECENT MONTHLY SPENDING (last 6 months)\n" ++ joinNL (monthly.map monthlyLine) ++
      "\n\nBEHAVIORAL PATTERNS\n  Peak spending day  : " ++ pd ++
      "\n  Peak spending hour : " ++ padZero 2 ph ++ ":00", ?_⟩
  have hlit : ("\n\nSPENDING BY CATEGORY\n" : String) ++ "\n\nTOP 10 MERCHANTS BY SPEND\n"
      = "\n\nSPENDING BY CATEGORY\n\n\nTOP 10 MERCHANTS BY SPEND\n" := by decide
  rw [← hlit]
  simp only [summarizeReport, renderSummary, List.map_nil]
  have hj : joinNL ([] : List String) = "" := rfl
  rw [hj]
  simp [String.append_assoc, String.append_empty]

/-- The label returned by `idxmax` over a `groupby(f).sum()` series attains
the maximal group total, and among the tying labels it is the least in the
key order (the series labels ascend and `idxmax` keeps the first maximum). -/
theorem idxmax_groupSeries_spec {K : Type} [LinearOrder K] [DecidableEq K] (f : Txn → K)
    (df : List Txn) (k₀ : K)
    (hk : idxmax ((sortedKeys f df).map fun k => (k, groupTotal f k df)) = some k₀) :
    ∀ k ∈ df.map f, groupTotal f k df ≤ groupTotal f k₀ df ∧
      (groupTotal f k df = groupTotal f k₀ df → k₀ ≤ k) := by
  cases e : (sortedKeys f df).map (fun k => (k, groupTotal f k df)) with
  | nil =>
    rw [e] at hk
    exact absurd hk (by simp [idxmax])
  | cons x xs =>
    rw [e] at hk
    simp only [idxmax, Option.some.injEq] at hk
    have hpair : (x :: xs).Pairwise (fun a b => a.1 < b.1) := by
      rw [← e]
      exact (sortedKeys_pairwise_lt f df).map _ (fun a b hab => hab)
    obtain ⟨v, hv1, hv2, hv3⟩ := idxmaxGo_spec xs x hpair
    rw [hk] at hv1 hv3
    have hvmem : (k₀, v) ∈ (sortedKeys f df).map fun k => (k, groupTotal f k df) := by
      rw [e]
      exact hv1
    obtain ⟨k', _, hkeq⟩ := List.mem_map.1 hvmem
    have hk' : k' = k₀ := congrArg Prod.fst hkeq
    have hv : groupTotal f k₀ df = v := by
      have := congrArg Prod.snd hkeq
      rw [hk'] at this
      exact this
    intro k hkmem
    have hkser : (k, groupTotal f k df) ∈ x :: xs := by
      rw [← e]
      exact List.mem_map_of_mem _ (mem_sortedKeys.2 hkmem)
    constructor
    · have h5 := hv2 _ hkser
      rw [← hv] at h5
      exact h5
    · intro heq
      exact hv3 _ hkser (heq.trans hv)

/-- C9 counterexample: on a frame where Tuesday and Thursday tie for the
maximal day total, the code reports Thursday — the first label in the
ascending alphabetical grouping order — although Tuesday comes strictly
earlier in the Monday-first week ordering the claim prescribes. -/
theorem c9_counterexample :
    peakDay [egT1, egT2] = some "Thursday" ∧
    groupTotal (fun t => t.day_of_week) "Tuesday" [egT1, egT2]
      = groupTotal (fun t => t.day_of_week) "Thursday" [egT1, egT2] ∧
    weekIndex "Tuesday" < weekIndex "Thursday" ∧
    peakDay [egT1, egT2] ≠ some "Tuesday" := by
  have h1 : peakDay [egT1, egT2] = some "Thursday" := by
    have hls : ¬ ((['T', 'u', 'e', 's', 'd', 'a', 'y'] : List Char) ≤
        ['T', 'h', 'u', 'r', 's', 'd', 'a', 'y']) := by decide
    simp [peakDay, dayTotals, sortedKeys, egT1, egT2, List.insertionSort,
      List.orderedInsert, List.dedup_cons_of_not_mem, idxmax, idxmaxGo, groupTotal,
      hls, lt_irrefl]
  refine ⟨h1, ?_, by decide, ?_⟩
  · simp [groupTotal, egT1, egT2]
  · rw [h1]
    decide

/-- C9 amended: the behavioral peaks are argmaxes of the grouped totals
with these tie-breaks — the peak hour is the lowest tying hour value, as
the claim states, while the peak day is the tying day that comes first in
ascending lexical day-name order (pandas groups the day-name strings in
ascending order and `idxmax` keeps the first maximum), not the day earliest
in a Monday-first week ordering. -/
theorem c9_amended_peak_tiebreak (df : List Txn) (d : String) (h : ℕ)
    (hd : peakDay df = some d) (hh : peakHour df = some h) :
    (∀ d' ∈ df.map (fun t => t.day_of_week),
      groupTotal (fun t => t.day_of_week) d' df
        ≤ groupTotal (fun t => t.day_of_week) d df ∧
      (groupTotal (fun t => t.day_of_week) d' df
          = groupTotal (fun t => t.day_of_week) d df → d ≤ d')) ∧
    (∀ h' ∈ df.map (fun t => t.hour),
      groupTotal (fun t => t.hour) h' df ≤ groupTotal (fun t => t.hour) h df ∧
      (groupTotal (fun t => t.hour) h' df = groupTotal (fun t => t.hour) h df
        → h ≤ h')) :=
  ⟨idxmax_groupSeries_spec (fun t => t.day_of_week) df d
      (by simpa [peakDay, dayTotals] using hd),
   idxmax_groupSeries_spec (fun t => t.hour) df h
      (by simpa [peakHour, hourTotals] using hh)⟩

/-- Witness for C9 amended: the two sample transactions, whose peak day is
Thursday and peak hour is 9. -/
theorem c9_amended_witness :
    (∀ d' ∈ ([egT1, egT2] : List Txn).map (fun t => t.day_of_week),
      groupTotal (fun t => t.day_of_week) d' [egT1, egT2]
        ≤ groupTotal (fun t => t.day_of_week) "Thursday" [egT1, egT2] ∧
      (groupTotal (fun t => t.day_of_week) d' [egT1, egT2]
          = groupTotal (fun t => t.day_of_week) "Thursday" [egT1, egT2]
        → "Thursday" ≤ d')) ∧
    (∀ h' ∈ ([egT1, egT2] : List Txn).map (fun t => t.hour),
      groupTotal (fun t => t.hour) h' [egT1, egT2]
        ≤ groupTotal (fun t => t.hour) 9 [egT1, egT2] ∧
      (groupTotal (fun t => t.hour) h' [egT1, egT2]
          = groupTotal (fun t => t.hour) 9 [egT1, egT2] → 9 ≤ h')) := by
  refine c9_amended_peak_tiebreak [egT1, egT2] "Thursday" 9 ?_ ?_
  · have hls : ¬ ((['T', 'u', 'e', 's', 'd', 'a', 'y'] : List Char) ≤
        ['T', 'h', 'u', 'r', 's', 'd', 'a', 'y']) := by decide
    simp [peakDay, dayTotals, sortedKeys, egT1, egT2, List.insertionSort,
      List.orderedInsert, List.dedup_cons_of_not_mem, idxmax, idxmaxGo, groupTotal,
      hls, lt_irrefl]
  · simp [peakHour, hourTotals, sortedKeys, egT1, egT2, List.insertionSort,
      List.orderedInsert, List.dedup_cons_of_not_mem, idxmax, idxmaxGo, groupTotal,
      lt_irrefl]

end FinSight
